import Mathlib

/-
Verification development for the `strip-alma-user-stats` repository.

The repository is a batch client for the Alma user-registry API: it pages
through all user records, fetches each user's JSON document, strips
configured statistic categories (plus some title/role normalisation), and
writes back only records whose statistic count changed.

This file shallowly embeds the code under `src/`:
  * JSON documents (the `json` crate's `JsonValue`) as the inductive `Json`,
    with index / index-mut / remove helpers mirroring the `json` crate's
    semantics (immutable indexing of a missing key yields null; mutable
    indexing autovivifies: it inserts null for a missing key and replaces a
    non-object with a fresh object).
  * the pure part of `handle_user` (src/lib.rs, lines 315-361) as
    `handle_user : Config → Json → Bool × Json` (the fetched record in, the
    in-memory record after mutation out, the Bool is the returned
    changed flag; the PUT write-back happens exactly when the flag is true).
  * the streaming XML decoding of `get_user_ids_and_total_count`
    (src/alma.rs lines 57-110 = src/lib.rs lines 68-121) over an event-list
    model of `quick_xml`'s reader.
  * the error classifier `check_error` (src/alma.rs lines 207-280 =
    src/lib.rs lines 229-302), with the response body represented by its
    XML tokenisation and its JSON parse (the content-type dispatch decides
    which representation the code actually reads).
  * the per-operation effect traces of the rate-limited client, and the
    page orchestration of `main` (src/main.rs lines 24-103).
-/

namespace AlmaModel

/-! ## Association-list helpers

`json::object::Object` stores entries in insertion order with unique keys;
we model it as a `List (String × Json)`.  `lookupEntry` is `Object::get`
(first match), `setFirst` is the write through `get_mut` (replace the first
match, keeping its position), and `removeEntry` is `Object::remove`
(clearing the key). -/

def lookupEntry {β : Type} : List (String × β) → String → Option β
  | [], _ => none
  | e :: es, k => if e.1 = k then some e.2 else lookupEntry es k

def setFirst {β : Type} : List (String × β) → String → β → List (String × β)
  | [], _, _ => []
  | e :: es, k, v => if e.1 = k then (e.1, v) :: es else e :: setFirst es k v

def removeEntry {β : Type} (es : List (String × β)) (k : String) : List (String × β) :=
  es.filter (fun e => decide (e.1 ≠ k))

/-! ## The JSON data model (the `json` crate's `JsonValue`) -/

inductive Json where
  | null
  | bool (b : Bool)
  | num (n : Int)
  | str (s : String)
  | arr (elems : List Json)
  | obj (entries : List (String × Json))

/-- Immutable indexing `value[key]`: a missing key or a non-object yields null. -/
def Json.get (j : Json) (k : String) : Json :=
  match j with
  | .obj es => (lookupEntry es k).getD .null
  | _ => .null

/-- Model of `JsonValue::has_key`: only objects have keys. -/
def Json.hasKey (j : Json) (k : String) : Bool :=
  match j with
  | .obj es => (lookupEntry es k).isSome
  | _ => false

/-- Model of `JsonValue::as_str`. -/
def Json.asStr : Json → Option String
  | .str s => some s
  | _ => none

/-- Model of `JsonValue::remove(key)`: objects drop the key, anything else is untouched. -/
def Json.removeKey (j : Json) (k : String) : Json :=
  match j with
  | .obj es => .obj (removeEntry es k)
  | _ => j

/-- The state of the container after `value[key]` in a mutable position
(`IndexMut`): an object gains a null entry for a missing key; a non-object
is replaced by a fresh object holding only that null entry. -/
def Json.indexMutPrep (j : Json) (k : String) : Json :=
  match j with
  | .obj es => if (lookupEntry es k).isSome then .obj es else .obj (es ++ [(k, .null)])
  | _ => .obj [(k, .null)]

/-- Assignment through `value[key] = v` (`IndexMut` followed by a store). -/
def Json.setIndexMut (j : Json) (k : String) (v : Json) : Json :=
  match j with
  | .obj es => if (lookupEntry es k).isSome then .obj (setFirst es k v) else .obj (es ++ [(k, v)])
  | _ => .obj [(k, v)]

/-! ## The record transformer (`handle_user`, src/lib.rs lines 315-361)

The rule configuration: the two line-per-entry files loaded into
`CATEGORIES_TO_REMOVE` and `EXTERNAL_USER_GROUPS` (`HashSet`s, modelled by
lists queried only through `contains`). -/

structure Config where
  categoriesToRemove : List String
  externalUserGroups : List String

/-- ASCII model of Rust's `char` uppercasing used by `str::to_uppercase`. -/
def toUpperChar (c : Char) : Char :=
  if 97 ≤ c.toNat ∧ c.toNat ≤ 122 then Char.ofNat (c.toNat - 32) else c

/-- Model of `str::to_uppercase`. -/
def toUpperStr (s : String) : String :=
  String.mk (s.data.map toUpperChar)

/-- The title normalisation of `handle_user` (src/lib.rs lines 317-325):
remove `user_title` when it has no `desc`, otherwise upper-case its string
`value`. -/
def titleStep (r : Json) : Json :=
  if (r.get "user_title").hasKey "desc" = false then
    r.removeKey "user_title"
  else
    match ((r.get "user_title").get "value").asStr with
    | some t =>
        let r1 := r.indexMutPrep "user_title"
        r1.setIndexMut "user_title" ((r1.get "user_title").setIndexMut "value" (.str (toUpperStr t)))
    | none => r

/-- The retain predicate on role parameters (src/lib.rs lines 328-331). -/
def paramRetain (param : Json) : Bool :=
  !(((param.get "value").get "value").asStr == some "DEFAULT_CIRC_DESK")
    && !(((param.get "value").get "desc").asStr == some "")

/-- Processing of one `user_role` entry (src/lib.rs lines 326-333): the
mutable index `user_role["parameter"]` autovivifies, then an array value is
filtered in place. -/
def roleStep (role : Json) : Json :=
  let r1 := role.indexMutPrep "parameter"
  match r1.get "parameter" with
  | .arr ps => r1.setIndexMut "parameter" (.arr (ps.filter paramRetain))
  | _ => r1

/-- The role-parameter pruning loop over `user_details["user_role"]`. -/
def rolesStep (r : Json) : Json :=
  let r1 := r.indexMutPrep "user_role"
  match r1.get "user_role" with
  | .arr roles => r1.setIndexMut "user_role" (.arr (roles.map roleStep))
  | _ => r1

/-- The retain predicate on statistic entries (src/lib.rs lines 338-352):
drop internal-segment entries when the user's group is configured external,
otherwise drop entries whose category value is in the removal set; entries
without a category value are kept. -/
def statRetain (cfg : Config) (userGroup : String) (stat : Json) : Bool :=
  if ((stat.get "segment_type").asStr == some "Internal")
      && cfg.externalUserGroups.contains userGroup then
    false
  else
    match ((stat.get "category_type").get "value").asStr with
    | some category => !(cfg.categoriesToRemove.contains category)
    | none => true

/-- The statistic-stripping block (src/lib.rs lines 335-358): filter the
`user_statistic` array in place and report changed exactly when the length
shrank (the write-back PUT is issued exactly in that case). -/
def statsStep (cfg : Config) (userGroup : String) (r : Json) : Bool × Json :=
  let r1 := r.indexMutPrep "user_statistic"
  match r1.get "user_statistic" with
  | .arr stats =>
      let kept := stats.filter (statRetain cfg userGroup)
      (!(stats.length == kept.length), r1.setIndexMut "user_statistic" (.arr kept))
  | _ => (false, r1)

/-- The pure content of `handle_user` (src/lib.rs lines 315-361): the input
is the fetched record, the output is the changed flag it returns together
with the in-memory record after all mutations (which is PUT back iff the
flag is true).  The `user_group` is read after the title and role steps,
exactly as in the source. -/
def handle_user (cfg : Config) (r : Json) : Bool × Json :=
  let r1 := titleStep r
  let r2 := rolesStep r1
  let userGroup := ((r2.get "user_group").get "value").asStr.getD ""
  statsStep cfg userGroup r2

/-- Number of entries in a record's `user_statistic` array (0 when the field
is not an array). -/
def statCount (r : Json) : Nat :=
  match r.get "user_statistic" with
  | .arr l => l.length
  | _ => 0

/-! ## XML event streams (`quick_xml::Reader`)

A response body is represented by the event stream its reader produces:
start tags with their attributes, text nodes, end tags, and `other` for
every remaining event kind the loops skip (comments, CData, declarations,
empty elements).  The end of the list is `Event::Eof`. -/

inductive XmlEvent where
  | start (name : String) (attrs : List (String × String))
  | text (s : String)
  | endTag (name : String)
  | other
deriving DecidableEq, Repr

/-- Model of `Reader::read_to_end(name)`: skip events, tracking nesting of `name`,
until the matching end tag; `none` models the error at end of stream.  The
result carries its own bound so callers can recurse on stream length. -/
def readToEnd (name : String) :
    (events : List XmlEvent) → Nat → Option { r : List XmlEvent // r.length ≤ events.length }
  | [], _ => none
  | e :: rest, depth =>
    let lift : { r : List XmlEvent // r.length ≤ rest.length } →
        { r : List XmlEvent // r.length ≤ (e :: rest).length } :=
      fun x => ⟨x.1, Nat.le_succ_of_le x.2⟩
    match e with
    | .endTag n =>
        if n = name then
          if depth = 0 then some ⟨rest, Nat.le_succ _⟩
          else (readToEnd name rest (depth - 1)).map lift
        else (readToEnd name rest depth).map lift
    | .start n _ =>
        if n = name then (readToEnd name rest (depth + 1)).map lift
        else (readToEnd name rest depth).map lift
    | _ => (readToEnd name rest depth).map lift

/-- Model of `Reader::read_text(name)`: one event is read; a text node yields its
content and the stream is skipped to the matching end tag, an immediate
matching end tag yields the empty string, and anything else (including end
of stream) is an error, modelled as `none`. -/
def readText (name : String) :
    (events : List XmlEvent) → Option (String × { r : List XmlEvent // r.length < events.length })
  | .text s :: rest =>
      (readToEnd name rest 0).map (fun r => (s, ⟨r.1, Nat.lt_succ_of_le r.2⟩))
  | .endTag n :: rest => if n = name then some ("", ⟨rest, Nat.lt_succ_self _⟩) else none
  | _ => none

/-! ## The listing decoder (`get_user_ids_and_total_count`,
src/alma.rs lines 57-110 = src/lib.rs lines 68-121) -/

inductive ListDecodeError where
  | missingTotalCount
  | malformedXml
deriving DecidableEq, Repr

/-- Model of `str::parse::<usize>` on an attribute value: all-digit strings
parse to their decimal value (the rarely exercised leading `+` accepted by
Rust's parser is not modelled). -/
def parseNat (s : String) : Option Nat :=
  if s.data ≠ [] ∧ s.data.all (fun c => c.isDigit) then
    some (s.data.foldl (fun n c => n * 10 + (c.toNat - 48)) 0)
  else none

/-- The `find_map` over the `<users>` element's attributes looking for
`total_record_count` (src/alma.rs lines 83-91). -/
def findTotalAttr (attrs : List (String × String)) : Option Nat :=
  attrs.findSome? (fun a => if a.1 = "total_record_count" then parseNat a.2 else none)

/-- The decoding loop of `get_user_ids_and_total_count`: every `<users>`
start overwrites the saved total with its attribute lookup, every
`<primary_id>` start captures the element text, and end of stream returns
the ids (in document order) with the total, failing when no total was
found.  `ids` is the reversed accumulator of ids pushed so far. -/
def usersLoop (events : List XmlEvent) (ids : List String) (total : Option Nat) :
    Except ListDecodeError (List String × Nat) :=
  match events with
  | [] =>
      match total with
      | some t => .ok (ids.reverse, t)
      | none => .error .missingTotalCount
  | .start n attrs :: rest =>
      if n = "users" then usersLoop rest ids (findTotalAttr attrs)
      else if n = "primary_id" then
        match readText "primary_id" rest with
        | some (s, r) => usersLoop r.1 (s :: ids) total
        | none => .error .malformedXml
      else usersLoop rest ids total
  | _ :: rest => usersLoop rest ids total
termination_by events.length
decreasing_by
  · simp
  · exact Nat.lt_succ_of_lt r.2
  · simp
  · simp

/-- The XML-decoding part of `get_user_ids_and_total_count` applied to a
response body. -/
def get_user_ids_and_total_count (events : List XmlEvent) :
    Except ListDecodeError (List String × Nat) :=
  usersLoop events [] none

/-- Synthetic `<primary_id>` element carrying one identifier. -/
def primaryIdEvents (id : String) : List XmlEvent :=
  [.start "primary_id" [], .text id, .endTag "primary_id"]

/-- Synthetic listing body: a `<users>` element with the given attributes
enclosing one `<primary_id>` element per identifier, in order. -/
def mkListing (ids : List String) (attrs : List (String × String)) : List XmlEvent :=
  .start "users" attrs :: ((ids.map primaryIdEvents).flatten ++ [.endTag "users"])

/-! ## The error classifier (`check_error`, src/alma.rs lines 207-280 =
src/lib.rs lines 229-302) -/

/-- One structured Alma error (the `AlmaError` struct). -/
structure AlmaError where
  status_code : Nat
  error_code : String
  error_message : String
  tracking_id : String
deriving DecidableEq, Repr

/-- Outcome of the XML error-body loop: the accumulated errors at end of
stream, a panic (the `last_mut().unwrap()` on an empty vector), or a
propagated `read_text` failure. -/
inductive XmlErrOutcome where
  | errors (es : List AlmaError)
  | panicked
  | readFailure
deriving DecidableEq, Repr

/-- The XML branch of `check_error` (src/alma.rs lines 221-253): an
`<error>` start pushes a blank error, the three field elements write their
text into the last pushed error — unwrapping panics when none was pushed —
and end of stream returns all accumulated errors (possibly none).  `acc` is
the reversed accumulator; its head is the vector's last element.  The
Rust assignment evaluates its right operand (`read_text`) before the place
expression, so a failed text read surfaces before the unwrap can panic. -/
def xmlErrLoop (status : Nat) (events : List XmlEvent) (acc : List AlmaError) : XmlErrOutcome :=
  match events with
  | [] => .errors acc.reverse
  | .start n _ :: rest =>
      if n = "error" then
        xmlErrLoop status rest
          ({ status_code := status, error_code := "", error_message := "", tracking_id := "" } :: acc)
      else if n = "errorCode" then
        match readText "errorCode" rest with
        | none => .readFailure
        | some (s, r) =>
            match acc with
            | [] => .panicked
            | a :: as => xmlErrLoop status r.1 ({ a with error_code := s } :: as)
      else if n = "errorMessage" then
        match readText "errorMessage" rest with
        | none => .readFailure
        | some (s, r) =>
            match acc with
            | [] => .panicked
            | a :: as => xmlErrLoop status r.1 ({ a with error_message := s } :: as)
      else if n = "trackingId" then
        match readText "trackingId" rest with
        | none => .readFailure
        | some (s, r) =>
            match acc with
            | [] => .panicked
            | a :: as => xmlErrLoop status r.1 ({ a with tracking_id := s } :: as)
      else xmlErrLoop status rest acc
  | _ :: rest => xmlErrLoop status rest acc
termination_by events.length
decreasing_by
  · simp
  · exact Nat.lt_succ_of_lt r.2
  · exact Nat.lt_succ_of_lt r.2
  · exact Nat.lt_succ_of_lt r.2
  · simp
  · simp

/-- JSON string escaping used by serialization (quotes, backslashes and the
common control characters; rarer control characters are left as-is). -/
def escapeJsonChar (c : Char) : String :=
  if c = '"' then "\\\""
  else if c = '\\' then "\\\\"
  else if c = '\n' then "\\n"
  else if c = '\r' then "\\r"
  else if c = '\t' then "\\t"
  else String.singleton c

mutual

/-- Model of `JsonValue::dump`: compact serialization. -/
def Json.dump : Json → String
  | .null => "null"
  | .bool b => if b then "true" else "false"
  | .num n => toString n
  | .str s => "\"" ++ String.join (s.data.map escapeJsonChar) ++ "\""
  | .arr xs => "[" ++ Json.dumpList xs ++ "]"
  | .obj es => "\x7b" ++ Json.dumpEntries es ++ "\x7d"

def Json.dumpList : List Json → String
  | [] => ""
  | [x] => Json.dump x
  | x :: y :: xs => Json.dump x ++ "," ++ Json.dumpList (y :: xs)

def Json.dumpEntries : List (String × Json) → String
  | [] => ""
  | [e] => "\"" ++ String.join (e.1.data.map escapeJsonChar) ++ "\":" ++ Json.dump e.2
  | e :: f :: es =>
      "\"" ++ String.join (e.1.data.map escapeJsonChar) ++ "\":" ++ Json.dump e.2
        ++ "," ++ Json.dumpEntries (f :: es)

end

/-- The `Display` of `JsonValue` (`to_string`): strings print their raw
content, scalars their literal form, and composite values fall back to
`dump`. -/
def Json.toDisplay : Json → String
  | .str s => s
  | .null => "null"
  | .bool b => if b then "true" else "false"
  | .num n => toString n
  | j => j.dump

/-- The media type of a content-type header value: the portion before the
first `;`, as produced by `content_type.split(';').next().unwrap()`. -/
def mediaType (ct : String) : String :=
  String.mk (ct.data.takeWhile (fun c => c != ';'))

/-- Everything `check_error` reads from a failed HTTP response.  The body
is represented by its tokenisation under each of the two recognised
formats: `xmlEvents` is the `quick_xml` event stream of the body and
`jsonBody` its `json::parse` result (`none` = parse error); the
content-type dispatch decides which representation the code consumes. -/
structure HttpResponse where
  status : Nat
  contentType : Option String
  xmlEvents : List XmlEvent
  jsonBody : Option Json

/-- Model of `StatusCode::is_client_error() || is_server_error()`: 400-599. -/
def failStatusB (s : Nat) : Bool :=
  (400 ≤ s && s < 500) || (500 ≤ s && s < 600)

/-- The ways `check_error` can leave a failed response, mirroring the
distinct `anyhow!` sites and error propagations of the source. -/
inductive CheckFailure where
  | missingContentType (status : Nat)
  | almaErrors (es : List AlmaError)
  | xmlReadError
  | jsonParseError
  | jsonBadErrorBody (status : Nat)
  | unexpectedContentType (status : Nat) (contentType : String)
deriving DecidableEq, Repr

inductive CheckOutcome where
  | ok
  | panicked
  | failure (f : CheckFailure)
deriving DecidableEq, Repr

/-- One `AlmaError` built from a JSON error object (src/alma.rs lines
262-267); missing fields display as `"null"` via `to_string`. -/
def mkJsonAlmaError (status : Nat) (e : Json) : AlmaError :=
  { status_code := status
    error_code := (e.get "errorCode").toDisplay
    error_message := (e.get "errorMessage").toDisplay
    tracking_id := (e.get "trackingId").toDisplay }

/-- Model of `check_error` (src/alma.rs lines 207-280): success statuses pass the
response through; failed statuses are classified by the media type (the
content-type header up to the first `;`), decoding an XML body through
`xmlErrLoop` or a JSON body through its `errorList` object, with protocol
errors for a missing/unknown content type or an unusable body. -/
def check_error (r : HttpResponse) : CheckOutcome :=
  if failStatusB r.status then
    match r.contentType with
    | none => .failure (.missingContentType r.status)
    | some ct =>
        match mediaType ct with
        | "application/xml" =>
            match xmlErrLoop r.status r.xmlEvents [] with
            | .errors es => .failure (.almaErrors es)
            | .panicked => .panicked
            | .readFailure => .failure .xmlReadError
        | "application/json" =>
            match r.jsonBody with
            | none => .failure .jsonParseError
            | some body =>
                match body.get "errorList" with
                | .obj entries =>
                    .failure (.almaErrors (entries.map (fun e => mkJsonAlmaError r.status e.2)))
                | _ => .failure (.jsonBadErrorBody r.status)
        | _ => .failure (.unexpectedContentType r.status ct)
  else .ok

/-- Number of structured errors carried by an outcome. -/
def structuredErrorCount : CheckOutcome → Nat
  | .failure (.almaErrors es) => es.length
  | _ => 0

/-- Whether an outcome is a protocol-level error (a failure that carries a
description rather than structured errors). -/
def isProtocolError : CheckOutcome → Bool
  | .failure (.almaErrors _) => false
  | .failure _ => true
  | _ => false

/-- Synthetic XML error-group element for one (code, message, tracking id)
triple. -/
def errorGroupEvents (g : String × String × String) : List XmlEvent :=
  [.start "error" [], .start "errorCode" [], .text g.1, .endTag "errorCode",
   .start "errorMessage" [], .text g.2.1, .endTag "errorMessage",
   .start "trackingId" [], .text g.2.2, .endTag "trackingId", .endTag "error"]

/-- Synthetic XML error body holding one error group per triple. -/
def xmlErrorBody (groups : List (String × String × String)) : List XmlEvent :=
  (groups.map errorGroupEvents).flatten

/-- The structurally equivalent JSON error body: an `errorList` object
whose values are the error objects. -/
def jsonErrorBody (groups : List (String × String × String)) : Json :=
  .obj [("errorList", .obj (groups.map (fun g =>
    ("error", Json.obj [("errorCode", .str g.1), ("errorMessage", .str g.2.1),
                        ("trackingId", .str g.2.2)]))))]

/-- The `AlmaError` both decoders are expected to produce for a triple. -/
def expectedAlmaError (status : Nat) (g : String × String × String) : AlmaError :=
  { status_code := status, error_code := g.1, error_message := g.2.1, tracking_id := g.2.2 }

/-- An event is benign for the error loop when it is not a start of any of
the four recognised element names. -/
def benignErrEvent : XmlEvent → Bool
  | .start n _ =>
      !(n == "error" || n == "errorCode" || n == "errorMessage" || n == "trackingId")
  | _ => true

/-! ## Request paths (identifier encoding)

`src/lib.rs` builds single-user paths with `user_id.replace("#", "%23")`
(lines 162, 169, 191); the duplicated client in `src/alma.rs` interpolates
the identifier verbatim (lines 152, 169). -/

/-- Model of `str::replace("#", "%23")` at character level. -/
def replaceHash (s : String) : String :=
  String.mk (s.data.flatMap (fun c => if c = '#' then ['%', '2', '3'] else [c]))

/-- Path of `Client::get_user_details` and `update_user_details` in
src/lib.rs. -/
def libUserPath (id : String) : String :=
  "users/" ++ replaceHash id

/-- Path of `Client::get_user_details_with_fees` in src/lib.rs. -/
def libUserFeesPath (id : String) : String :=
  "users/" ++ replaceHash id ++ "?expand=fees"

/-- Path of `Client::get_user_details` and `update_user_details` in
src/alma.rs (no encoding). -/
def almaUserPath (id : String) : String :=
  "users/" ++ id

/-- Listing path shared by both clients. -/
def usersListPath (offset limit : Nat) : String :=
  "users?order_by=primary_id&limit=" ++ toString limit ++ "&offset=" ++ toString offset

/-! ## Effect traces of the client operations

Each operation of the two `Client` impls is a straight-line async function;
its awaited effects, in program order, are a rate-limiter acquisition
(`until_ready`, the `governor` bucket plus jitter) followed by the HTTP
send.  The traces below transcribe that order from the source. -/

inductive Action where
  | acquire
  | httpRequest (method : String) (path : String)
deriving DecidableEq, Repr

/-- Trace of `get_user_ids_and_total_count` (both clients): acquire, then GET the
listing page. -/
def getUserIdsAndTotalCountTrace (offset limit : Nat) : List Action :=
  [.acquire, .httpRequest "GET" (usersListPath offset limit)]

/-- Trace of `get_user_ids` (both clients): acquire, then GET the listing page. -/
def getUserIdsTrace (offset limit : Nat) : List Action :=
  [.acquire, .httpRequest "GET" (usersListPath offset limit)]

/-- Trace of `get_user_details_impl` (src/lib.rs lines 173-185): acquire, then GET
the given url. -/
def getUserDetailsImplTrace (url : String) : List Action :=
  [.acquire, .httpRequest "GET" url]

/-- Trace of `get_user_details` (src/lib.rs lines 160-164): builds the url, then
defers to `get_user_details_impl`. -/
def libGetUserDetailsTrace (id : String) : List Action :=
  getUserDetailsImplTrace (libUserPath id)

/-- Trace of `get_user_details_with_fees` (src/lib.rs lines 167-171). -/
def libGetUserDetailsWithFeesTrace (id : String) : List Action :=
  getUserDetailsImplTrace (libUserFeesPath id)

/-- Trace of `update_user_details` (src/lib.rs lines 188-205): acquire, then PUT. -/
def libUpdateUserDetailsTrace (id : String) : List Action :=
  [.acquire, .httpRequest "PUT" (libUserPath id)]

/-- Trace of `get_user_details` (src/alma.rs lines 149-163): acquire, then GET. -/
def almaGetUserDetailsTrace (id : String) : List Action :=
  [.acquire, .httpRequest "GET" (almaUserPath id)]

/-- Trace of `update_user_details` (src/alma.rs lines 166-183): acquire, then PUT. -/
def almaUpdateUserDetailsTrace (id : String) : List Action :=
  [.acquire, .httpRequest "PUT" (almaUserPath id)]

/-- No HTTP request occurs before the first rate-limiter acquisition: since
a trace consists only of acquisitions and requests, this holds exactly when
the trace is empty or starts with an acquisition. -/
def noRequestBeforeAcquire (tr : List Action) : Bool :=
  match tr with
  | [] => true
  | .acquire :: _ => true
  | .httpRequest _ _ :: _ => false

/-! ## The batch orchestrator (`main`, src/main.rs lines 24-103)

The per-page tasks share nothing (the rate limiter only delays), so the
run's collected results are modelled by the list of per-page outcomes in
spawn order, each page computed from the id-listing oracle `listIds` and
the per-user oracle `handle` (both abstracting the network). -/

inductive Log where
  | listFailed (offset : Nat)
  | userFailed (id : String)
deriving DecidableEq, Repr

/-- The Alma API page size (`const LIMIT: usize = 100`). -/
def LIMIT : Nat := 100

/-- Model of `handle_user_batch` (src/main.rs lines 89-103): fold the users of a
page, counting updates and per-user errors (each error also logged). -/
def handleUserBatch (handle : String → Except Unit Bool) (ids : List String) :
    (Nat × Nat) × List Log :=
  ids.foldl
    (fun st id =>
      match handle id with
      | .ok true => ((st.1.1 + 1, st.1.2), st.2)
      | .ok false => st
      | .error _ => ((st.1.1, st.1.2 + 1), st.2 ++ [.userFailed id]))
    ((0, 0), [])

/-- The body of one spawned page task for a page after the first
(src/main.rs lines 50-58): a failed id listing is logged and yields the
counts (0, 0). -/
def pageTask (listIds : Nat → Except Unit (List String)) (handle : String → Except Unit Bool)
    (offset : Nat) : (Nat × Nat) × List Log :=
  match listIds (offset * LIMIT) with
  | .ok ids => handleUserBatch handle ids
  | .error _ => ((0, 0), [.listFailed offset])

/-- Options of the run (`--from-offset`, `--to-offset`). -/
structure RunOptions where
  fromOffset : Nat
  toOffset : Option Nat

/-- The collected run (src/main.rs lines 39-73): the first listing call
also produces the total count and its failure aborts the whole run (the
`?`); every later page runs `pageTask`; results are collected per offset in
spawn order. -/
def runMain (listFirst : Except Unit (List String × Nat))
    (listIds : Nat → Except Unit (List String)) (handle : String → Except Unit Bool)
    (opts : RunOptions) : Except Unit (List (Nat × ((Nat × Nat) × List Log))) :=
  match listFirst with
  | .error e => .error e
  | .ok (userIds, totalUsers) =>
      let lastOffset := min ((opts.toOffset).getD (totalUsers / LIMIT)) (totalUsers / LIMIT)
      let pages := List.range' (opts.fromOffset + 1) (lastOffset - opts.fromOffset)
      .ok ((opts.fromOffset, handleUserBatch handle userIds)
            :: pages.map (fun o => (o, pageTask listIds handle o)))

/-- The collected (updated, errors) counts reported for a given page
offset. -/
def pageCounts (res : Except Unit (List (Nat × ((Nat × Nat) × List Log)))) (offset : Nat) :
    Option (Nat × Nat) :=
  match res with
  | .error _ => none
  | .ok l => (l.lookup offset).map (·.1)

/-! ## Concrete claim inputs -/

/-- Empty rule configuration (no categories to strip, no external groups). -/
def cfgEmpty : Config := ⟨[], []⟩

/-- A record whose title has a value but no description. -/
def titleOnlyRecord : Json := .obj [("user_title", .obj [("value", .str "a")])]

/-- The rule configuration of the transform-correctness scenario: strip
`FULL_PART_TIME`, no external groups. -/
def cfgScenario : Config := ⟨["FULL_PART_TIME"], []⟩

/-- First statistic of the scenario (category `RESPONSIBILITY_CENTER`). -/
def statRC : Json := .obj
  [("statistic_category", .obj [("value", .str "RC_60"), ("desc", .str "RC Libraries")]),
   ("category_type", .obj [("value", .str "RESPONSIBILITY_CENTER"),
                           ("desc", .str "Responsibility Center (RC)")]),
   ("statistic_note", .str "Libraries"),
   ("segment_type", .str "External")]

/-- Second statistic of the scenario (category `FULL_PART_TIME`). -/
def statFPT : Json := .obj
  [("statistic_category", .obj [("value", .str "FPT_FR"), ("desc", .str "FPT Fulltime Regular")]),
   ("category_type", .obj [("value", .str "FULL_PART_TIME"),
                           ("desc", .str "Full or Part Time Enrollment (FPT)")]),
   ("statistic_note", .str "Fulltime-Regular"),
   ("segment_type", .str "External")]

/-- Third statistic of the scenario (category `EMPLOYEE_DEPT`). -/
def statED : Json := .obj
  [("statistic_category", .obj [("value", .str "ED_62050"),
                                ("desc", .str "ED (62050) Information Technology")]),
   ("category_type", .obj [("value", .str "EMPLOYEE_DEPT"),
                           ("desc", .str "Employee Department (ED)")]),
   ("statistic_note", .str "Information Technology"),
   ("segment_type", .str "External")]

/-- The scenario record: exactly the three statistics. -/
def scenarioRecord : Json := .obj [("user_statistic", .arr [statRC, statFPT, statED])]

/-- Everything the title step needs to leave a record untouched: the title
was removed (and the key cleared), or it has a description and an
upper-case-stable string value, or it has a description and a non-string
value. -/
def titlePost (x : Json) : Prop :=
  (x.hasKey "user_title" = false ∧ x.get "user_title" = .null)
  ∨ ((x.get "user_title").hasKey "desc" = true
      ∧ ∃ t, (x.get "user_title").get "value" = .str t ∧ toUpperStr t = t)
  ∨ ((x.get "user_title").hasKey "desc" = true
      ∧ ((x.get "user_title").get "value").asStr = none)

/-! ## Lemmas about the association-list helpers -/

theorem removeEntry_cons {β : Type} (e : String × β) (es : List (String × β)) (k : String) :
    removeEntry (e :: es) k =
      if e.1 = k then removeEntry es k else e :: removeEntry es k := by
  by_cases hk : e.1 = k <;> simp [removeEntry, List.filter_cons, hk]

theorem lookupEntry_append_of_none {β : Type} {es : List (String × β)} (ts : List (String × β))
    {k : String} (h : lookupEntry es k = none) :
    lookupEntry (es ++ ts) k = lookupEntry ts k := by
  induction es with
  | nil => rfl
  | cons e es ih =>
    simp only [lookupEntry] at h
    by_cases hk : e.1 = k
    · rw [if_pos hk] at h; exact absurd h (by simp)
    · rw [if_neg hk] at h
      simp only [List.cons_append, lookupEntry, if_neg hk]
      exact ih h

theorem lookupEntry_append_of_some {β : Type} {es : List (String × β)} (ts : List (String × β))
    {k : String} {v : β} (h : lookupEntry es k = some v) :
    lookupEntry (es ++ ts) k = some v := by
  induction es with
  | nil => exact absurd h (by simp [lookupEntry])
  | cons e es ih =>
    simp only [lookupEntry] at h
    by_cases hk : e.1 = k
    · rw [if_pos hk] at h
      simp only [List.cons_append, lookupEntry, if_pos hk]
      exact h
    · rw [if_neg hk] at h
      simp only [List.cons_append, lookupEntry, if_neg hk]
      exact ih h

theorem lookupEntry_setFirst_self {β : Type} {es : List (String × β)} {k : String}
    (h : (lookupEntry es k).isSome) (w : β) :
    lookupEntry (setFirst es k w) k = some w := by
  induction es with
  | nil => simp [lookupEntry] at h
  | cons e es ih =>
    simp only [lookupEntry] at h
    simp only [setFirst]
    by_cases hk : e.1 = k
    · rw [if_pos hk]
      simp only [lookupEntry, if_pos hk]
    · rw [if_neg hk] at h
      rw [if_neg hk]
      simp only [lookupEntry, if_neg hk]
      exact ih h

theorem lookupEntry_setFirst_ne {β : Type} {k k' : String} (hne : k' ≠ k)
    (es : List (String × β)) (w : β) :
    lookupEntry (setFirst es k w) k' = lookupEntry es k' := by
  induction es with
  | nil => rfl
  | cons e es ih =>
    simp only [setFirst]
    by_cases hk : e.1 = k
    · have hne1 : ¬(e.1 = k') := fun h => hne (h.symm.trans hk)
      rw [if_pos hk]
      simp only [lookupEntry, if_neg hne1]
    · rw [if_neg hk]
      simp only [lookupEntry]
      by_cases hk' : e.1 = k'
      · rw [if_pos hk', if_pos hk']
      · rw [if_neg hk', if_neg hk']
        exact ih

theorem setFirst_eq_self {β : Type} {es : List (String × β)} {k : String} {v : β}
    (h : lookupEntry es k = some v) : setFirst es k v = es := by
  induction es with
  | nil => rfl
  | cons e es ih =>
    simp only [lookupEntry] at h
    simp only [setFirst]
    by_cases hk : e.1 = k
    · rw [if_pos hk] at h
      rw [if_pos hk]
      have h2 : e.2 = v := by simpa using h
      rw [← h2]
    · rw [if_neg hk] at h
      rw [if_neg hk, ih h]

theorem removeEntry_of_none {β : Type} {es : List (String × β)} {k : String}
    (h : lookupEntry es k = none) : removeEntry es k = es := by
  induction es with
  | nil => rfl
  | cons e es ih =>
    simp only [lookupEntry] at h
    rw [removeEntry_cons]
    by_cases hk : e.1 = k
    · rw [if_pos hk] at h; exact absurd h (by simp)
    · rw [if_neg hk] at h
      rw [if_neg hk, ih h]

theorem lookupEntry_removeEntry_self {β : Type} (es : List (String × β)) (k : String) :
    lookupEntry (removeEntry es k) k = none := by
  induction es with
  | nil => rfl
  | cons e es ih =>
    rw [removeEntry_cons]
    by_cases hk : e.1 = k
    · rw [if_pos hk]; exact ih
    · rw [if_neg hk]
      simp only [lookupEntry, if_neg hk]
      exact ih

theorem lookupEntry_removeEntry_ne {β : Type} {k k' : String} (hne : k' ≠ k)
    (es : List (String × β)) :
    lookupEntry (removeEntry es k) k' = lookupEntry es k' := by
  induction es with
  | nil => rfl
  | cons e es ih =>
    rw [removeEntry_cons]
    by_cases hk : e.1 = k
    · have hne1 : ¬(e.1 = k') := fun h => hne (h.symm.trans hk)
      rw [if_pos hk]
      simp only [lookupEntry, if_neg hne1]
      exact ih
    · rw [if_neg hk]
      simp only [lookupEntry]
      by_cases hk' : e.1 = k'
      · rw [if_pos hk', if_pos hk']
      · rw [if_neg hk', if_neg hk']
        exact ih

/-! ## Lemmas about the JSON mutation helpers -/

theorem Json.get_setIndexMut_self (j : Json) (k : String) (v : Json) :
    (j.setIndexMut k v).get k = v := by
  cases j <;> simp [Json.setIndexMut, Json.get, lookupEntry]
  case obj es =>
    by_cases h : (lookupEntry es k).isSome
    · simp [h, Json.get, lookupEntry_setFirst_self h v]
    · rw [if_neg h]
      have hn : lookupEntry es k = none := Option.not_isSome_iff_eq_none.mp h
      simp [Json.get, lookupEntry_append_of_none _ hn, lookupEntry]

theorem Json.get_setIndexMut_ne {k k' : String} (hne : k' ≠ k) (j : Json) (v : Json) :
    (j.setIndexMut k v).get k' = j.get k' := by
  cases j <;> simp [Json.setIndexMut, Json.get, lookupEntry, hne, hne.symm]
  case obj es =>
    by_cases h : (lookupEntry es k).isSome
    · simp [h, Json.get, lookupEntry_setFirst_ne hne]
    · rw [if_neg h]
      have hn : lookupEntry es k = none := Option.not_isSome_iff_eq_none.mp h
      cases h' : lookupEntry es k' with
      | some w => simp [Json.get, lookupEntry_append_of_some _ h', h']
      | none => simp [Json.get, lookupEntry_append_of_none _ h', lookupEntry, hne, hne.symm, h']

theorem Json.hasKey_setIndexMut_self (j : Json) (k : String) (v : Json) :
    (j.setIndexMut k v).hasKey k = true := by
  cases j <;> simp [Json.setIndexMut, Json.hasKey, lookupEntry]
  case obj es =>
    by_cases h : (lookupEntry es k).isSome
    · simp [h, Json.hasKey, lookupEntry_setFirst_self h v]
    · rw [if_neg h]
      have hn : lookupEntry es k = none := Option.not_isSome_iff_eq_none.mp h
      simp [Json.hasKey, lookupEntry_append_of_none _ hn, lookupEntry]

theorem Json.hasKey_setIndexMut_ne {k k' : String} (hne : k' ≠ k) (j : Json) (v : Json) :
    (j.setIndexMut k v).hasKey k' = j.hasKey k' := by
  cases j <;> simp [Json.setIndexMut, Json.hasKey, lookupEntry, hne, hne.symm]
  case obj es =>
    by_cases h : (lookupEntry es k).isSome
    · simp [h, Json.hasKey, lookupEntry_setFirst_ne hne]
    · rw [if_neg h]
      cases h' : lookupEntry es k' with
      | some w => simp [Json.hasKey, lookupEntry_append_of_some _ h', h']
      | none => simp [Json.hasKey, lookupEntry_append_of_none _ h', lookupEntry, hne, hne.symm, h']

theorem Json.get_indexMutPrep_self (j : Json) (k : String) :
    (j.indexMutPrep k).get k = j.get k := by
  cases j <;> simp [Json.indexMutPrep, Json.get, lookupEntry]
  case obj es =>
    by_cases h : (lookupEntry es k).isSome
    · simp [h]
    · rw [if_neg h]
      have hn : lookupEntry es k = none := Option.not_isSome_iff_eq_none.mp h
      simp [Json.get, lookupEntry_append_of_none _ hn, lookupEntry, hn]

theorem Json.get_indexMutPrep_ne {k k' : String} (hne : k' ≠ k) (j : Json) :
    (j.indexMutPrep k).get k' = j.get k' := by
  cases j <;> simp [Json.indexMutPrep, Json.get, lookupEntry, hne, hne.symm]
  case obj es =>
    by_cases h : (lookupEntry es k).isSome
    · simp [h]
    · rw [if_neg h]
      cases h' : lookupEntry es k' with
      | some w => simp [Json.get, lookupEntry_append_of_some _ h', h']
      | none => simp [Json.get, lookupEntry_append_of_none _ h', lookupEntry, hne, hne.symm, h']

theorem Json.hasKey_indexMutPrep_self (j : Json) (k : String) :
    (j.indexMutPrep k).hasKey k = true := by
  cases j <;> simp [Json.indexMutPrep, Json.hasKey, lookupEntry]
  case obj es =>
    by_cases h : (lookupEntry es k).isSome
    · simp [h, Json.hasKey]
    · rw [if_neg h]
      have hn : lookupEntry es k = none := Option.not_isSome_iff_eq_none.mp h
      simp [Json.hasKey, lookupEntry_append_of_none _ hn, lookupEntry]

theorem Json.hasKey_indexMutPrep_ne {k k' : String} (hne : k' ≠ k) (j : Json) :
    (j.indexMutPrep k).hasKey k' = j.hasKey k' := by
  cases j <;> simp [Json.indexMutPrep, Json.hasKey, lookupEntry, hne, hne.symm]
  case obj es =>
    by_cases h : (lookupEntry es k).isSome
    · simp [h]
    · rw [if_neg h]
      cases h' : lookupEntry es k' with
      | some w => simp [Json.hasKey, lookupEntry_append_of_some _ h', h']
      | none => simp [Json.hasKey, lookupEntry_append_of_none _ h', lookupEntry, hne, hne.symm, h']

theorem Json.indexMutPrep_of_hasKey {j : Json} {k : String} (h : j.hasKey k = true) :
    j.indexMutPrep k = j := by
  cases j <;> simp [Json.hasKey] at h
  case obj es => simp [Json.indexMutPrep, h]

theorem Json.setIndexMut_eq_self {j : Json} {k : String} {v : Json}
    (h1 : j.hasKey k = true) (h2 : j.get k = v) : j.setIndexMut k v = j := by
  cases j <;> simp [Json.hasKey] at h1
  case obj es =>
    have ⟨w, hw⟩ := Option.isSome_iff_exists.mp h1
    have hv : w = v := by simpa [Json.get, hw] using h2
    subst hv
    simp [Json.setIndexMut, h1, setFirst_eq_self hw]

theorem Json.hasKey_removeKey_self (j : Json) (k : String) :
    (j.removeKey k).hasKey k = false := by
  cases j <;> simp [Json.removeKey, Json.hasKey]
  case obj es => simp [lookupEntry_removeEntry_self]

theorem Json.get_removeKey_self (j : Json) (k : String) :
    (j.removeKey k).get k = .null := by
  cases j <;> simp [Json.removeKey, Json.get]
  case obj es => simp [lookupEntry_removeEntry_self]

theorem Json.get_removeKey_ne {k k' : String} (hne : k' ≠ k) (j : Json) :
    (j.removeKey k).get k' = j.get k' := by
  cases j <;> simp [Json.removeKey, Json.get]
  case obj es => simp [lookupEntry_removeEntry_ne hne]

theorem Json.hasKey_removeKey_ne {k k' : String} (hne : k' ≠ k) (j : Json) :
    (j.removeKey k).hasKey k' = j.hasKey k' := by
  cases j <;> simp [Json.removeKey, Json.hasKey]
  case obj es => simp [lookupEntry_removeEntry_ne hne]

theorem Json.removeKey_of_hasKey_false {j : Json} {k : String} (h : j.hasKey k = false) :
    j.removeKey k = j := by
  cases j <;> simp [Json.removeKey]
  case obj es =>
    have h2 : (lookupEntry es k).isSome = false := by simpa [Json.hasKey] using h
    have hn : lookupEntry es k = none := Option.not_isSome_iff_eq_none.mp (by simp [h2])
    simp [removeEntry_of_none hn]

theorem Json.get_of_hasKey_false {j : Json} {k : String} (h : j.hasKey k = false) :
    j.get k = .null := by
  cases j <;> simp [Json.get]
  case obj es =>
    have h2 : (lookupEntry es k).isSome = false := by simpa [Json.hasKey] using h
    have hn : lookupEntry es k = none := Option.not_isSome_iff_eq_none.mp (by simp [h2])
    simp [hn]

theorem Json.hasKey_of_get_ne_null {j : Json} {k : String} (h : j.get k ≠ .null) :
    j.hasKey k = true := by
  by_cases hk : j.hasKey k = true
  · exact hk
  · exact absurd (Json.get_of_hasKey_false (by simpa using hk)) h

/-! ## Lemmas about the transformer steps -/

theorem filter_idem {α : Type} (p : α → Bool) (l : List α) :
    (l.filter p).filter p = l.filter p := by
  induction l with
  | nil => rfl
  | cons a l ih =>
    by_cases h : p a <;> simp [List.filter_cons, h, ih]

theorem titleStep_get_ne {k : String} (hk : k ≠ "user_title") (r : Json) :
    (titleStep r).get k = r.get k := by
  simp only [titleStep]
  split
  · exact Json.get_removeKey_ne hk r
  · split
    · rw [Json.get_setIndexMut_ne hk, Json.get_indexMutPrep_ne hk]
    · rfl

theorem titleStep_hasKey_ne {k : String} (hk : k ≠ "user_title") (r : Json) :
    (titleStep r).hasKey k = r.hasKey k := by
  simp only [titleStep]
  split
  · exact Json.hasKey_removeKey_ne hk r
  · split
    · rw [Json.hasKey_setIndexMut_ne hk, Json.hasKey_indexMutPrep_ne hk]
    · rfl

theorem rolesStep_get_ne {k : String} (hk : k ≠ "user_role") (r : Json) :
    (rolesStep r).get k = r.get k := by
  simp only [rolesStep]
  split
  · rw [Json.get_setIndexMut_ne hk, Json.get_indexMutPrep_ne hk]
  · rw [Json.get_indexMutPrep_ne hk]

theorem rolesStep_hasKey_ne {k : String} (hk : k ≠ "user_role") (r : Json) :
    (rolesStep r).hasKey k = r.hasKey k := by
  simp only [rolesStep]
  split
  · rw [Json.hasKey_setIndexMut_ne hk, Json.hasKey_indexMutPrep_ne hk]
  · rw [Json.hasKey_indexMutPrep_ne hk]

theorem rolesStep_hasKey_user_role (r : Json) :
    (rolesStep r).hasKey "user_role" = true := by
  simp only [rolesStep]
  split
  · exact Json.hasKey_setIndexMut_self _ _ _
  · exact Json.hasKey_indexMutPrep_self _ _

theorem statsStep_snd_get_ne {k : String} (hk : k ≠ "user_statistic") (cfg : Config)
    (g : String) (r : Json) : (statsStep cfg g r).2.get k = r.get k := by
  simp only [statsStep]
  split
  · rw [Json.get_setIndexMut_ne hk, Json.get_indexMutPrep_ne hk]
  · rw [Json.get_indexMutPrep_ne hk]

theorem statsStep_snd_hasKey_ne {k : String} (hk : k ≠ "user_statistic") (cfg : Config)
    (g : String) (r : Json) : (statsStep cfg g r).2.hasKey k = r.hasKey k := by
  simp only [statsStep]
  split
  · rw [Json.hasKey_setIndexMut_ne hk, Json.hasKey_indexMutPrep_ne hk]
  · rw [Json.hasKey_indexMutPrep_ne hk]

theorem statsStep_snd_hasKey_user_statistic (cfg : Config) (g : String) (r : Json) :
    (statsStep cfg g r).2.hasKey "user_statistic" = true := by
  simp only [statsStep]
  split
  · exact Json.hasKey_setIndexMut_self _ _ _
  · exact Json.hasKey_indexMutPrep_self _ _

/-! ## Idempotence of the transformer steps -/

theorem roleStep_fix {j : Json} (h1 : j.hasKey "parameter" = true)
    (h2 : ∀ ps, j.get "parameter" = Json.arr ps → ps.filter paramRetain = ps) :
    roleStep j = j := by
  simp only [roleStep, Json.indexMutPrep_of_hasKey h1]
  split
  next ps heq => rw [h2 ps heq]; exact Json.setIndexMut_eq_self h1 heq
  next => rfl

theorem roleStep_hasKey_parameter (role : Json) :
    (roleStep role).hasKey "parameter" = true := by
  simp only [roleStep]
  split
  · exact Json.hasKey_setIndexMut_self _ _ _
  · exact Json.hasKey_indexMutPrep_self _ _

theorem roleStep_get_parameter_arr (role : Json) {ps : List Json}
    (h : (roleStep role).get "parameter" = Json.arr ps) : ps.filter paramRetain = ps := by
  revert h
  simp only [roleStep]
  split
  next ps0 heq =>
    rw [Json.get_setIndexMut_self]
    intro h
    have hps : ps0.filter paramRetain = ps := Json.arr.inj h
    rw [← hps, filter_idem]
  next hne =>
    rw [Json.get_indexMutPrep_self]
    intro h
    exact absurd (by rw [Json.get_indexMutPrep_self]; exact h) (hne ps)

theorem roleStep_idem (role : Json) : roleStep (roleStep role) = roleStep role :=
  roleStep_fix (roleStep_hasKey_parameter role) (fun _ h => roleStep_get_parameter_arr role h)

theorem map_roleStep_idem (roles : List Json) :
    (roles.map roleStep).map roleStep = roles.map roleStep := by
  induction roles with
  | nil => rfl
  | cons a l ih => simp [roleStep_idem, ih]

theorem rolesStep_fix {j : Json} (h1 : j.hasKey "user_role" = true)
    (h2 : ∀ rs, j.get "user_role" = Json.arr rs → rs.map roleStep = rs) :
    rolesStep j = j := by
  simp only [rolesStep, Json.indexMutPrep_of_hasKey h1]
  split
  next rs heq => rw [h2 rs heq]; exact Json.setIndexMut_eq_self h1 heq
  next => rfl

theorem rolesStep_get_user_role_arr (r : Json) {rs : List Json}
    (h : (rolesStep r).get "user_role" = Json.arr rs) : rs.map roleStep = rs := by
  revert h
  simp only [rolesStep]
  split
  next rs0 heq =>
    rw [Json.get_setIndexMut_self]
    intro h
    have hrs : rs0.map roleStep = rs := Json.arr.inj h
    rw [← hrs, map_roleStep_idem]
  next hne =>
    rw [Json.get_indexMutPrep_self]
    intro h
    exact absurd (by rw [Json.get_indexMutPrep_self]; exact h) (hne rs)

theorem statsStep_fix {cfg : Config} {g : String} {j : Json}
    (h1 : j.hasKey "user_statistic" = true)
    (h2 : ∀ ss, j.get "user_statistic" = Json.arr ss → ss.filter (statRetain cfg g) = ss) :
    statsStep cfg g j = (false, j) := by
  simp only [statsStep, Json.indexMutPrep_of_hasKey h1]
  split
  next ss heq =>
    rw [h2 ss heq]
    rw [Json.setIndexMut_eq_self h1 heq]
    simp
  next => rfl

theorem statsStep_snd_get_user_statistic_arr (cfg : Config) (g : String) (r : Json)
    {ss : List Json} (h : (statsStep cfg g r).2.get "user_statistic" = Json.arr ss) :
    ss.filter (statRetain cfg g) = ss := by
  revert h
  simp only [statsStep]
  split
  next ss0 heq =>
    rw [Json.get_setIndexMut_self]
    intro h
    have hss : ss0.filter (statRetain cfg g) = ss := Json.arr.inj h
    rw [← hss, filter_idem]
  next hne =>
    rw [Json.get_indexMutPrep_self]
    intro h
    exact absurd (by rw [Json.get_indexMutPrep_self]; exact h) (hne ss)

/-! ## Idempotence of the title step -/

theorem toUpperChar_toNat_sub (n : Nat) (h1 : 97 ≤ n) (h2 : n ≤ 122) :
    (Char.ofNat (n - 32)).toNat = n - 32 := by
  interval_cases n <;> decide

theorem toUpperChar_idem (c : Char) : toUpperChar (toUpperChar c) = toUpperChar c := by
  unfold toUpperChar
  by_cases h : 97 ≤ c.toNat ∧ c.toNat ≤ 122
  · rw [if_pos h]
    have hn := toUpperChar_toNat_sub c.toNat h.1 h.2
    have hno : ¬(97 ≤ (Char.ofNat (c.toNat - 32)).toNat ∧
        (Char.ofNat (c.toNat - 32)).toNat ≤ 122) := by
      rw [hn]; omega
    rw [if_neg hno]
  · rw [if_neg h, if_neg h]

theorem map_toUpperChar_comp (l : List Char) :
    l.map (toUpperChar ∘ toUpperChar) = l.map toUpperChar := by
  induction l with
  | nil => rfl
  | cons c l ih => simp only [List.map_cons, Function.comp_apply, toUpperChar_idem, ih]

theorem toUpperStr_idem (s : String) : toUpperStr (toUpperStr s) = toUpperStr s := by
  unfold toUpperStr
  have hd : (String.mk (s.data.map toUpperChar)).data = s.data.map toUpperChar := rfl
  rw [hd, List.map_map, map_toUpperChar_comp]

theorem titleStep_post (r : Json) : titlePost (titleStep r) := by
  simp only [titleStep]
  split
  next hd =>
    exact Or.inl ⟨Json.hasKey_removeKey_self r _, Json.get_removeKey_self r _⟩
  next hd =>
    have hd' : (r.get "user_title").hasKey "desc" = true := by
      simpa using hd
    split
    next t hv =>
      refine Or.inr (Or.inl ⟨?_, toUpperStr t, ?_, toUpperStr_idem t⟩)
      · rw [Json.get_setIndexMut_self]
        rw [Json.hasKey_setIndexMut_ne (by decide : ("desc" : String) ≠ "value")]
        rw [Json.get_indexMutPrep_self]
        exact hd'
      · rw [Json.get_setIndexMut_self, Json.get_setIndexMut_self]
    next hv =>
      exact Or.inr (Or.inr ⟨hd', hv⟩)

theorem titleStep_of_post {x : Json} (h : titlePost x) : titleStep x = x := by
  rcases h with ⟨h1, h2⟩ | ⟨h1, t, h2, h3⟩ | ⟨h1, h2⟩
  · simp only [titleStep]
    rw [if_pos (by rw [h2]; rfl)]
    exact Json.removeKey_of_hasKey_false h1
  · have hx : x.hasKey "user_title" = true := by
      refine Json.hasKey_of_get_ne_null (fun hnull => ?_)
      rw [hnull] at h1
      simp [Json.hasKey] at h1
    have hvk : (x.get "user_title").hasKey "value" = true := by
      refine Json.hasKey_of_get_ne_null (fun hnull => ?_)
      rw [hnull] at h2
      cases h2
    simp only [titleStep]
    rw [if_neg (by rw [h1]; simp)]
    rw [Json.indexMutPrep_of_hasKey hx]
    have hs : ((x.get "user_title").get "value").asStr = some t := by rw [h2]; rfl
    simp only [hs]
    rw [h3, Json.setIndexMut_eq_self hvk h2]
    exact Json.setIndexMut_eq_self hx rfl
  · simp only [titleStep]
    rw [if_neg (by rw [h1]; simp)]
    rw [h2]

theorem titlePost_of_eq {x y : Json} (hget : y.get "user_title" = x.get "user_title")
    (hkey : y.hasKey "user_title" = x.hasKey "user_title") (h : titlePost x) :
    titlePost y := by
  unfold titlePost at h ⊢
  rw [hget, hkey]
  exact h

theorem statsStep_fst_iff (cfg : Config) (g : String) (x : Json) :
    (statsStep cfg g x).1 = true ↔ statCount (statsStep cfg g x).2 ≠ statCount x := by
  unfold statCount
  simp only [statsStep]
  split
  next ss heq =>
    have hx : x.get "user_statistic" = Json.arr ss := by
      rw [← Json.get_indexMutPrep_self x "user_statistic"]; exact heq
    simp only [Json.get_setIndexMut_self, hx]
    simp only [Bool.not_eq_eq_eq_not, Bool.not_true, beq_eq_false_iff_ne, ne_eq]
    constructor
    · intro h h2; exact h h2.symm
    · intro h h2; exact h h2.symm
  next hne =>
    have hx : (x.indexMutPrep "user_statistic").get "user_statistic" = x.get "user_statistic" :=
      Json.get_indexMutPrep_self x "user_statistic"
    simp only [hx]
    simp

/-! ## Claim theorems

Each theorem below settles one claim of the specification against the
embedded code. -/

/-- C1 (counterexample): on a record whose `user_title` has no `desc`, the
transform removes the title — the resulting record differs from the input —
yet it reports Unchanged (false) and therefore skips the write-back, so
"Unchanged implies nothing differs" is false. -/
theorem C1_counterexample :
    (handle_user cfgEmpty titleOnlyRecord).1 = false
      ∧ (handle_user cfgEmpty titleOnlyRecord).2 ≠ titleOnlyRecord := by
  constructor
  · rfl
  · intro h
    have h2 := congrArg (fun j => Json.hasKey j "user_title") h
    exact absurd h2 (by decide)

/-- C1 (amended): `handle_user` reports Changed (true, and only then issues
the replace) if and only if the resulting record's statistic-entry count
differs from the input's; mutated title or role fields alone never trigger
Changed, so Unchanged only implies the statistic count is unchanged. -/
theorem C1_theorem (cfg : Config) (r : Json) :
    (handle_user cfg r).1 = true ↔ statCount (handle_user cfg r).2 ≠ statCount r := by
  have h1 : handle_user cfg r =
      statsStep cfg ((((rolesStep (titleStep r)).get "user_group").get "value").asStr.getD "")
        (rolesStep (titleStep r)) := rfl
  have hstat : statCount r = statCount (rolesStep (titleStep r)) := by
    unfold statCount
    rw [rolesStep_get_ne (by decide), titleStep_get_ne (by decide)]
  rw [h1, statsStep_fst_iff, ← hstat]

/-- C3: on the record with the three statistics `RESPONSIBILITY_CENTER`,
`FULL_PART_TIME`, `EMPLOYEE_DEPT` (all segment External) and the removal
set containing exactly `FULL_PART_TIME` with no external groups, the
transform reports Changed and the resulting statistic list holds exactly
the `RESPONSIBILITY_CENTER` and `EMPLOYEE_DEPT` entries, unmodified and in
their original relative order. -/
theorem C3_theorem :
    (handle_user cfgScenario scenarioRecord).1 = true
      ∧ (handle_user cfgScenario scenarioRecord).2.get "user_statistic"
          = Json.arr [statRC, statED] :=
  ⟨rfl, rfl⟩

/-- C4: the transform is idempotent — applied to its own output (title
normalised, role parameters pruned, statistics stripped) it reports
Unchanged and returns that record untouched: the output of a first
application is a fixed point. -/
theorem C4_theorem (cfg : Config) (r : Json) :
    handle_user cfg (handle_user cfg r).2 = (false, (handle_user cfg r).2) := by
  obtain ⟨r1, hr1⟩ : ∃ x, titleStep r = x := ⟨_, rfl⟩
  obtain ⟨r2, hr2⟩ : ∃ x, rolesStep r1 = x := ⟨_, rfl⟩
  obtain ⟨g, hg⟩ : ∃ x, (((r2.get "user_group").get "value").asStr).getD "" = x := ⟨_, rfl⟩
  obtain ⟨r', hr'⟩ : ∃ x, (statsStep cfg g r2).2 = x := ⟨_, rfl⟩
  have hfst : handle_user cfg r = statsStep cfg g r2 := by
    simp only [handle_user, hr1, hr2, hg]
  have f_tget : r'.get "user_title" = r1.get "user_title" := by
    rw [← hr', statsStep_snd_get_ne (by decide), ← hr2, rolesStep_get_ne (by decide)]
  have f_tkey : r'.hasKey "user_title" = r1.hasKey "user_title" := by
    rw [← hr', statsStep_snd_hasKey_ne (by decide), ← hr2, rolesStep_hasKey_ne (by decide)]
  have tpost : titlePost r' := titlePost_of_eq f_tget f_tkey (hr1 ▸ titleStep_post r)
  have tA : titleStep r' = r' := titleStep_of_post tpost
  have f_rkey : r'.hasKey "user_role" = true := by
    rw [← hr', statsStep_snd_hasKey_ne (by decide), ← hr2]
    exact rolesStep_hasKey_user_role r1
  have hpr : r'.get "user_role" = r2.get "user_role" := by
    rw [← hr', statsStep_snd_get_ne (by decide)]
  have f_rget : ∀ rs, r'.get "user_role" = Json.arr rs → rs.map roleStep = rs := by
    intro rs h
    exact rolesStep_get_user_role_arr r1 (by rw [hr2, ← hpr]; exact h)
  have tB : rolesStep r' = r' := rolesStep_fix f_rkey f_rget
  have f_skey : r'.hasKey "user_statistic" = true := by
    rw [← hr']; exact statsStep_snd_hasKey_user_statistic cfg g r2
  have f_sget : ∀ ss, r'.get "user_statistic" = Json.arr ss →
      ss.filter (statRetain cfg g) = ss := by
    intro ss h
    exact statsStep_snd_get_user_statistic_arr cfg g r2 (by rw [hr']; exact h)
  have f_g : (((r'.get "user_group").get "value").asStr).getD "" = g := by
    rw [← hr', statsStep_snd_get_ne (by decide), hg]
  have tD : statsStep cfg g r' = (false, r') := statsStep_fix f_skey f_sget
  calc handle_user cfg (handle_user cfg r).2
      = handle_user cfg r' := by rw [hfst, hr']
    _ = statsStep cfg ((((r'.get "user_group").get "value").asStr).getD "") r' := by
        simp only [handle_user, tA, tB]
    _ = (false, r') := by rw [f_g]; exact tD
    _ = (false, (handle_user cfg r).2) := by rw [hfst, hr']

theorem xmlErrLoop_skip (status : Nat) (e : XmlEvent) (he : benignErrEvent e = true)
    (rest : List XmlEvent) (acc : List AlmaError) :
    xmlErrLoop status (e :: rest) acc = xmlErrLoop status rest acc := by
  cases e with
  | start n attrs =>
      simp only [benignErrEvent, Bool.not_eq_true', Bool.or_eq_false_iff,
        beq_eq_false_iff_ne, ne_eq] at he
      obtain ⟨⟨⟨h1, h2⟩, h3⟩, h4⟩ := he
      rw [xmlErrLoop, if_neg h1, if_neg h2, if_neg h3, if_neg h4]
  | text s =>
      rw [xmlErrLoop]
      intro n attrs hcon
      exact XmlEvent.noConfusion hcon
  | endTag n =>
      rw [xmlErrLoop]
      intro n2 attrs hcon
      exact XmlEvent.noConfusion hcon
  | other =>
      rw [xmlErrLoop]
      intro n attrs hcon
      exact XmlEvent.noConfusion hcon

theorem check_error_xml (status : Nat) (ct : String) (ev : List XmlEvent) (jb : Option Json)
    (hct : mediaType ct = "application/xml") (h : failStatusB status = true) :
    check_error ⟨status, some ct, ev, jb⟩
      = match xmlErrLoop status ev [] with
        | .errors es => .failure (.almaErrors es)
        | .panicked => .panicked
        | .readFailure => .failure .xmlReadError := by
  simp only [check_error, h, reduceIte, hct, String.reduceEq]

theorem check_error_json (status : Nat) (ct : String) (ev : List XmlEvent) (jb : Option Json)
    (hct : mediaType ct = "application/json") (h : failStatusB status = true) :
    check_error ⟨status, some ct, ev, jb⟩
      = match jb with
        | none => .failure .jsonParseError
        | some body =>
            match body.get "errorList" with
            | .obj entries =>
                .failure (.almaErrors (entries.map (fun e => mkJsonAlmaError status e.2)))
            | _ => .failure (.jsonBadErrorBody status) := by
  simp only [check_error, h, reduceIte, hct, String.reduceEq]

theorem usersLoop_idEvents (ids : List String) (tail : List XmlEvent) (acc : List String)
    (total : Option Nat) :
    usersLoop ((ids.map primaryIdEvents).flatten ++ tail) acc total
      = usersLoop tail (ids.reverse ++ acc) total := by
  induction ids generalizing acc with
  | nil => simp
  | cons id ids ih =>
    simp only [List.map_cons, List.flatten_cons, primaryIdEvents, List.cons_append]
    rw [usersLoop]
    simp [readText, readToEnd]
    rw [ih]

/-- C5: decoding a synthetic listing body with the identifiers in document
order and a numeric `total_record_count` attribute on the `users` element
yields exactly those identifiers in order together with that total; the
same body without the attribute fails with a decode error (no default). -/
theorem C5_theorem (ids : List String) (v : Nat) (s : String) (h : parseNat s = some v) :
    get_user_ids_and_total_count (mkListing ids [("total_record_count", s)])
        = .ok (ids, v)
    ∧ get_user_ids_and_total_count (mkListing ids []) = .error .missingTotalCount := by
  have htot : findTotalAttr [("total_record_count", s)] = some v := by
    simp [findTotalAttr, h]
  constructor
  · unfold get_user_ids_and_total_count mkListing
    rw [usersLoop]
    simp only [String.reduceEq, reduceIte, htot]
    rw [usersLoop_idEvents]
    simp [usersLoop]
  · unfold get_user_ids_and_total_count mkListing
    rw [usersLoop]
    simp only [String.reduceEq, reduceIte, findTotalAttr, List.findSome?_nil]
    rw [usersLoop_idEvents]
    simp [usersLoop]

/-- C5 (witness): the round-trip at a concrete two-identifier body. -/
theorem C5_witness :
    parseNat "7" = some 7
    ∧ (get_user_ids_and_total_count (mkListing ["a", "b"] [("total_record_count", "7")])
          = .ok (["a", "b"], 7)
      ∧ get_user_ids_and_total_count (mkListing ["a", "b"] []) = .error .missingTotalCount) :=
  ⟨by decide, C5_theorem ["a", "b"] 7 "7" (by decide)⟩

theorem xmlErrLoop_groups (status : Nat) (groups : List (String × String × String))
    (acc : List AlmaError) :
    xmlErrLoop status (groups.map errorGroupEvents).flatten acc
      = .errors (acc.reverse ++ groups.map (expectedAlmaError status)) := by
  induction groups generalizing acc with
  | nil =>
    simp only [List.map_nil, List.flatten_nil]
    rw [xmlErrLoop]
    simp
  | cons g gs ih =>
    obtain ⟨c, m, t⟩ := g
    simp only [List.map_cons, List.flatten_cons, errorGroupEvents, List.cons_append]
    rw [xmlErrLoop]
    simp only [String.reduceEq, reduceIte]
    rw [xmlErrLoop]
    simp [readText, readToEnd]
    rw [xmlErrLoop]
    simp [readText, readToEnd]
    rw [xmlErrLoop]
    simp [readText, readToEnd]
    rw [xmlErrLoop_skip status (XmlEvent.endTag "error") rfl]
    rw [ih]
    simp [expectedAlmaError]

theorem jsonErrors_map (status : Nat) (groups : List (String × String × String)) :
    (groups.map (fun g =>
        ("error", Json.obj [("errorCode", .str g.1), ("errorMessage", .str g.2.1),
                            ("trackingId", .str g.2.2)]))).map
      (fun e => mkJsonAlmaError status e.2) = groups.map (expectedAlmaError status) := by
  induction groups with
  | nil => rfl
  | cons g gs ih =>
    simp only [List.map_cons, ih]
    rfl

/-- C6: for any 4xx/5xx status, the XML error body with K groups decodes to
K structured errors all carrying the response status, and the structurally
equivalent JSON error-list body decodes to the very same K errors (equal
codes, messages and tracking ids). -/
theorem C6_theorem (status : Nat) (groups : List (String × String × String))
    (h : failStatusB status = true) :
    check_error ⟨status, some "application/xml", xmlErrorBody groups, none⟩
        = .failure (.almaErrors (groups.map (expectedAlmaError status)))
    ∧ check_error ⟨status, some "application/json", [], some (jsonErrorBody groups)⟩
        = .failure (.almaErrors (groups.map (expectedAlmaError status)))
    ∧ (groups.map (expectedAlmaError status)).length = groups.length
    ∧ ∀ a ∈ groups.map (expectedAlmaError status), a.status_code = status := by
  refine ⟨?_, ?_, by simp, ?_⟩
  · rw [check_error_xml status "application/xml" _ _ rfl h]
    unfold xmlErrorBody
    rw [xmlErrLoop_groups]
    simp
  · rw [check_error_json status "application/json" _ _ rfl h]
    unfold jsonErrorBody
    simp only [Json.get, lookupEntry, String.reduceEq, reduceIte, Option.getD_some]
    rw [jsonErrors_map]
  · intro a ha
    obtain ⟨g, _, hg⟩ := List.mem_map.mp ha
    rw [← hg]
    rfl

/-- C6 (witness): the duality at a concrete two-group error body. -/
theorem C6_witness :
    failStatusB 400 = true
    ∧ check_error ⟨400, some "application/xml",
          xmlErrorBody [("c1", "m1", "t1"), ("c2", "m2", "t2")], none⟩
        = .failure (.almaErrors [⟨400, "c1", "m1", "t1"⟩, ⟨400, "c2", "m2", "t2"⟩])
    ∧ check_error ⟨400, some "application/json", [],
          some (jsonErrorBody [("c1", "m1", "t1"), ("c2", "m2", "t2")])⟩
        = .failure (.almaErrors [⟨400, "c1", "m1", "t1"⟩, ⟨400, "c2", "m2", "t2"⟩]) :=
  ⟨rfl, (C6_theorem 400 [("c1", "m1", "t1"), ("c2", "m2", "t2")] rfl).1,
    (C6_theorem 400 [("c1", "m1", "t1"), ("c2", "m2", "t2")] rfl).2.1⟩

/-- C2 (counterexample): a 400 response declared `application/xml` whose
body holds no error-group element fails with an `AlmaErrors` value carrying
zero structured errors and no protocol-error description, refuting "at
least one structured error or one protocol error". -/
theorem C2_counterexample :
    failStatusB 400 = true
    ∧ check_error ⟨400, some "application/xml", [], none⟩ = .failure (.almaErrors [])
    ∧ structuredErrorCount (check_error ⟨400, some "application/xml", [], none⟩) = 0
    ∧ isProtocolError (check_error ⟨400, some "application/xml", [], none⟩) = false := by
  have hx : check_error ⟨400, some "application/xml", [], none⟩
      = .failure (.almaErrors []) := by
    rw [check_error_xml 400 "application/xml" [] none rfl rfl]
    rw [xmlErrLoop]
    rfl
  exact ⟨rfl, hx, by rw [hx]; rfl, by rw [hx]; rfl⟩

/-- C2 (amended): every 4xx/5xx response surfaces as a failure or a panic —
`check_error` never passes such a response through as success — though the
failure may carry an empty structured-error list (XML body without any
error group), see the counterexample. -/
theorem C2_theorem (r : HttpResponse) (h : failStatusB r.status = true) :
    check_error r ≠ .ok := by
  unfold check_error
  rw [if_pos h]
  split
  · simp
  split
  · split <;> simp
  · split
    · simp
    · split <;> simp
  · simp

/-- C2 (witness): the amended claim at a concrete failed response. -/
theorem C2_witness :
    failStatusB 400 = true ∧ check_error ⟨400, none, [], none⟩ ≠ .ok :=
  ⟨rfl, C2_theorem ⟨400, none, [], none⟩ rfl⟩

theorem xmlErrLoop_benign_init (status : Nat) (pre : List XmlEvent)
    (hpre : pre.all benignErrEvent = true) (tail : List XmlEvent) (acc : List AlmaError) :
    xmlErrLoop status (pre ++ tail) acc = xmlErrLoop status tail acc := by
  induction pre with
  | nil => rfl
  | cons e pre ih =>
    simp only [List.all_cons, Bool.and_eq_true] at hpre
    obtain ⟨he, hpre⟩ := hpre
    rw [List.cons_append, xmlErrLoop_skip status e he]
    exact ih hpre

/-- C10: a failed response declared `application/xml` whose body's first
recognised element is an `errorCode`, `errorMessage` or `trackingId`
(text-content) element, before any enclosing `error` element has been seen,
makes `check_error` panic (the `last_mut().unwrap()` on the empty error
vector) instead of returning an error value. -/
theorem C10_theorem (status : Nat) (pre : List XmlEvent) (f : String)
    (attrs : List (String × String)) (s : String) (rest : List XmlEvent)
    (h : failStatusB status = true)
    (hf : f = "errorCode" ∨ f = "errorMessage" ∨ f = "trackingId")
    (hpre : pre.all benignErrEvent = true) :
    check_error ⟨status, some "application/xml",
        pre ++ (XmlEvent.start f attrs :: XmlEvent.text s :: XmlEvent.endTag f :: rest),
        none⟩ = .panicked := by
  have hloop : xmlErrLoop status
      (pre ++ (XmlEvent.start f attrs :: XmlEvent.text s :: XmlEvent.endTag f :: rest)) []
      = .panicked := by
    rw [xmlErrLoop_benign_init status pre hpre]
    rcases hf with rfl | rfl | rfl <;>
      · rw [xmlErrLoop]
        simp [readText, readToEnd]
  rw [check_error_xml status "application/xml" _ _ rfl h, hloop]

/-- C7 (counterexample): the `alma.rs` client variant inserts the
identifier into the path verbatim, so an identifier containing `#` reaches
the path unencoded — refuting "percent-encoded in every client variant". -/
theorem C7_counterexample :
    almaUserPath "a#b" = "users/a#b" ∧ '#' ∈ (almaUserPath "a#b").data := by
  exact ⟨rfl, by decide⟩

theorem replaceHash_no_hash (l : List Char) :
    '#' ∉ l.flatMap (fun c => if c = '#' then ['%', '2', '3'] else [c]) := by
  induction l with
  | nil => simp
  | cons c l ih =>
    simp only [List.flatMap_cons, List.mem_append]
    intro hmem
    rcases hmem with hmem | hmem
    · by_cases h : c = '#'
      · rw [if_pos h] at hmem
        revert hmem
        decide
      · rw [if_neg h] at hmem
        exact h (List.mem_singleton.mp hmem).symm
    · exact ih hmem

/-- C7 (amended): the `lib.rs` client variants (`get_user_details`,
`get_user_details_with_fees`, `update_user_details`) replace every `#` of
the identifier with `%23`, so their request paths never contain `#`;
the `alma.rs` variants insert the identifier unencoded. -/
theorem C7_theorem (id : String) :
    '#' ∉ (libUserPath id).data
    ∧ '#' ∉ (libUserFeesPath id).data
    ∧ almaUserPath id = "users/" ++ id := by
  have hdata : (replaceHash id).data
      = id.data.flatMap (fun c => if c = '#' then ['%', '2', '3'] else [c]) := rfl
  refine ⟨?_, ?_, rfl⟩
  · have h1 : (libUserPath id).data = "users/".data ++ (replaceHash id).data := rfl
    rw [h1, hdata]
    simp only [List.mem_append]
    intro hmem
    rcases hmem with hmem | hmem
    · revert hmem; decide
    · exact replaceHash_no_hash id.data hmem
  · have h1 : (libUserFeesPath id).data
        = ("users/".data ++ (replaceHash id).data) ++ "?expand=fees".data := rfl
    rw [h1, hdata]
    simp only [List.mem_append]
    intro hmem
    rcases hmem with (hmem | hmem) | hmem
    · revert hmem; decide
    · exact replaceHash_no_hash id.data hmem
    · revert hmem; decide

/-- C8 (counterexample): with a failing id-listing oracle, the later page's
collected (updated-count, error-count) result is (0, 0) — the listing
failure is logged but contributes zero to the error count, refuting
"recorded as exactly one error in that page's collected result". -/
theorem C8_counterexample :
    runMain (.ok (["u"], 150)) (fun _ => .error ()) (fun _ => .ok false) ⟨0, none⟩
        = .ok [(0, ((0, 0), [])), (1, ((0, 0), [Log.listFailed 1]))]
    ∧ pageCounts
        (runMain (.ok (["u"], 150)) (fun _ => .error ()) (fun _ => .ok false) ⟨0, none⟩) 1
        = some (0, 0)
    ∧ (0 : Nat) ≠ 1 := by
  exact ⟨rfl, rfl, by decide⟩

/-- C8 (amended): a failed id-listing call of a page after the first is
non-fatal — the page's entry in the collected results carries counts (0, 0)
(zero updates and zero counted errors) together with exactly one logged
list-failure — while a failure of the very first listing call (which
establishes the total count) aborts the entire run with that error. -/
theorem C8_theorem (listFirst : Except Unit (List String × Nat))
    (listIds : Nat → Except Unit (List String)) (handle : String → Except Unit Bool)
    (opts : RunOptions) :
    (∀ e, listFirst = .error e → runMain listFirst listIds handle opts = .error e)
    ∧ (∀ ids total o e, listFirst = .ok (ids, total)
        → opts.fromOffset + 1 ≤ o
        → o ≤ min ((opts.toOffset).getD (total / LIMIT)) (total / LIMIT)
        → listIds (o * LIMIT) = .error e
        → ∃ res, runMain listFirst listIds handle opts = .ok res
            ∧ (o, ((0, 0), [Log.listFailed o])) ∈ res) := by
  constructor
  · intro e he
    rw [he]
    rfl
  · intro ids total o e hfirst h1 h2 hfail
    refine ⟨(opts.fromOffset, handleUserBatch handle ids)
        :: (List.range' (opts.fromOffset + 1)
            (min ((opts.toOffset).getD (total / LIMIT)) (total / LIMIT)
              - opts.fromOffset)).map (fun o2 => (o2, pageTask listIds handle o2)),
      ?_, ?_⟩
    · rw [hfirst]
      rfl
    · refine List.mem_cons_of_mem _ ?_
      have ho : o ∈ List.range' (opts.fromOffset + 1)
          (min ((opts.toOffset).getD (total / LIMIT)) (total / LIMIT) - opts.fromOffset) := by
        rw [List.mem_range'_1]
        exact ⟨h1, by omega⟩
      refine List.mem_map.mpr ⟨o, ho, ?_⟩
      simp [pageTask, hfail]

/-- C8 (witness): both halves of the amended claim at concrete oracles — a
failed first listing aborts, and page 1's listing failure yields the
(0, 0) entry with its single log line. -/
theorem C8_witness :
    runMain (.error ()) (fun _ => .error ()) (fun _ => .ok false) ⟨0, none⟩ = .error ()
    ∧ ∃ res, runMain (.ok (["u"], 150)) (fun _ => .error ()) (fun _ => .ok false) ⟨0, none⟩
        = .ok res ∧ (1, ((0, 0), [Log.listFailed 1])) ∈ res :=
  ⟨(C8_theorem (.error ()) (fun _ => .error ()) (fun _ => .ok false) ⟨0, none⟩).1 () rfl,
    (C8_theorem (.ok (["u"], 150)) (fun _ => .error ()) (fun _ => .ok false) ⟨0, none⟩).2
      ["u"] 150 1 () rfl (by decide) (by decide) rfl⟩

/-- C9: in every client operation's effect trace — listing ids (with or
without the total count), fetching one record (with or without fees, in
both client variants) and replacing one record — no HTTP request precedes
the rate-limiter acquisition: each trace opens with the acquisition. -/
theorem C9_theorem (offset limit : Nat) (id url : String) :
    noRequestBeforeAcquire (getUserIdsAndTotalCountTrace offset limit) = true
    ∧ noRequestBeforeAcquire (getUserIdsTrace offset limit) = true
    ∧ noRequestBeforeAcquire (getUserDetailsImplTrace url) = true
    ∧ noRequestBeforeAcquire (libGetUserDetailsTrace id) = true
    ∧ noRequestBeforeAcquire (libGetUserDetailsWithFeesTrace id) = true
    ∧ noRequestBeforeAcquire (libUpdateUserDetailsTrace id) = true
    ∧ noRequestBeforeAcquire (almaGetUserDetailsTrace id) = true
    ∧ noRequestBeforeAcquire (almaUpdateUserDetailsTrace id) = true :=
  ⟨rfl, rfl, rfl, rfl, rfl, rfl, rfl, rfl⟩

/-- C10 (witness): the panic at a concrete body whose `errorCode` element
precedes any `error` group. -/
theorem C10_witness :
    failStatusB 400 = true
    ∧ ("errorCode" = "errorCode" ∨ ("errorCode" : String) = "errorMessage"
        ∨ ("errorCode" : String) = "trackingId")
    ∧ ([XmlEvent.start "users" [], XmlEvent.text "x"].all benignErrEvent = true)
    ∧ check_error ⟨400, some "application/xml",
        [XmlEvent.start "users" [], XmlEvent.text "x"]
          ++ (XmlEvent.start "errorCode" [] :: XmlEvent.text "boom"
              :: XmlEvent.endTag "errorCode" :: []), none⟩ = .panicked :=
  ⟨rfl, Or.inl rfl, rfl,
    C10_theorem 400 [XmlEvent.start "users" [], XmlEvent.text "x"] "errorCode" [] "boom" []
      rfl (Or.inl rfl) rfl⟩

end AlmaModel
